import Mathlib

/-!
Verification of the Python/C++ binding layer `src/trm/roche/roche.cc` of the
trm-roche repository.

The binding file is the only source file of the repository; the numerical
engine it wraps (the `Roche::` and `Subs::` C++ libraries: `fblink`,
`ingress_egress`, `lobe1`, `streamr`, `strinit`, `strmnx`, `vtrans`,
`vstrreg`, `xl1` ...) is an external collaborator that is not part of the
repository source.  Those engine routines are therefore modelled as an
abstract structure `RocheEngine`; every theorem quantifies over all engine
behaviours, which makes statements about the binding layer itself as strong
as possible.

C doubles are modelled as exact rationals; the one place where precision is
itself the property under study (the `Py_BuildValue` double-to-float
narrowing used by `xl1`, `xl2` and `xl3`) is modelled by an explicit
round-to-nearest-even function `float32round`.

A Python C-API function either returns a value or raises an exception; this
is modelled by `PyResult`.  Every error raised by the binding file is a
`PyExc_ValueError`; the error messages are carried verbatim.
-/

/-- The kinds of Python exceptions relevant to the binding layer.  Every
explicit `PyErr_SetString` in roche.cc uses `PyExc_ValueError`; `typeError`
models the distinct class that `PyArg_ParseTuple` raises for malformed
argument tuples (marshaling glue, out of scope here) and exists so that the
notion of an error kind is non-trivial. -/
inductive PyExc where
  | valueError
  | typeError
deriving DecidableEq

/-- A raised Python exception: its class together with the message string
passed to `PyErr_SetString`. -/
structure PyErr where
  exc : PyExc
  msg : String
deriving DecidableEq

/-- Outcome of a Python C-API call: a value, or a raised exception. -/
inductive PyResult (α : Type) where
  | ok : α → PyResult α
  | raise : PyErr → PyResult α
deriving DecidableEq

/-- The star selector `Roche::PRIMARY` / `Roche::SECONDARY`. -/
inductive StarSel where
  | primary
  | secondary
deriving DecidableEq

/-- A `Subs::Vec3`, components as exact rationals. -/
structure Vec3 where
  x : ℚ
  y : ℚ
  z : ℚ
deriving DecidableEq

/-- Interface of the external numerical engine (the trm C++ `Roche`
library), exactly the routines invoked by roche.cc.  The engine is not part
of the repository source, so it is kept abstract: each binding-layer theorem
holds for every engine.  Array-filling routines receive the buffer size `n`
and produce one value per slot, mirroring the fact that the binding layer
allocates a fixed 2-by-n array which the engine fills in place.
`vstrreg` may throw a `Roche::Roche_Error`, modelled by `Except` with the
error text.  Following the spec, `strinit` places a test particle at the
inner Lagrangian point and `strmnx` advances the trajectory to the next
turning point; both are abstract here. -/
structure RocheEngine where
  fblink : ℚ → ℚ → ℚ → Vec3 → StarSel → ℚ → ℚ → Bool
  ingress_egress : ℚ → ℚ → ℚ → Vec3 → ℚ → StarSel → Option (ℚ × ℚ)
  lobe1 : ℚ → (n : ℕ) → (Fin n → ℚ) × (Fin n → ℚ)
  lobe2 : ℚ → (n : ℕ) → (Fin n → ℚ) × (Fin n → ℚ)
  streamr : ℚ → ℚ → (n : ℕ) → (Fin n → ℚ) × (Fin n → ℚ)
  strinit : ℚ → Vec3 × Vec3
  strmnx : ℚ → Vec3 → Vec3 → ℚ → Vec3 × Vec3
  vlobe1 : ℚ → (n : ℕ) → (Fin n → ℚ) × (Fin n → ℚ)
  vlobe2 : ℚ → (n : ℕ) → (Fin n → ℚ) × (Fin n → ℚ)
  vstrreg : ℚ → ℚ → (n : ℕ) → ℤ → Except String ((Fin n → ℚ) × (Fin n → ℚ))
  vtrans : ℚ → ℤ → ℚ → ℚ → ℚ → ℚ → ℚ × ℚ
  xl1 : ℚ → ℚ
  xl2 : ℚ → ℚ
  xl3 : ℚ → ℚ

/-- The bisection loop of `roche_findq` (roche.cc lines 47-53):
`while (qhi - qlo > dq) { q = (qlo+qhi)/2; if (fblink q) qhi = q; else qlo = q; }`.
The loop terminates because the bracket halves each pass; here it runs on a
fuel bounded below by the number of halvings needed (`findqFuel` supplies
enough).  Returns the final bracket together with the number of loop body
executions, so that theorems can speak about how many bisection steps were
performed. -/
def bisect (E : ℚ → Bool) (dq : ℚ) : ℕ → ℚ → ℚ → (ℚ × ℚ) × ℕ
  | 0, lo, hi => ((lo, hi), 0)
  | fuel+1, lo, hi =>
    if dq < hi - lo then
      if E ((lo + hi) / 2) then
        let r := bisect E dq fuel lo ((lo + hi) / 2)
        (r.1, r.2 + 1)
      else
        let r := bisect E dq fuel ((lo + hi) / 2) hi
        (r.1, r.2 + 1)
    else ((lo, hi), 0)

/-- Fuel sufficient for `bisect` to reach a bracket of width at most `dq`:
the loop halves the width each pass, and for a nonnegative rational `x` the
numerator of `x` is at least `x` while `2 ^ x.num` is at least `x.num`, so
`2 ^ findqFuel` reaches `(qhi - qlo) / dq`. -/
def findqFuel (qlo qhi dq : ℚ) : ℕ :=
  ((qhi - qlo) / dq).num.toNat

/-- `roche_findq` from roche.cc (lines 12-57), instrumented: on success it
returns the computed value together with the number of bisection loop body
executions.  Argument validation is verbatim from the source; `r0` stands
for the default-constructed `Subs::Vec3 r` (the `Subs` library is outside
the repository source, so the vector is a parameter).  The eclipse tester
`Roche::fblink` is called as in the source: at `phi = pwidth/2`, star
`SECONDARY`, filling factor 1. -/
def roche_findqT (eng : RocheEngine) (r0 : Vec3)
    (iangle pwidth acc dq qlo qhi : ℚ) : PyResult (ℚ × ℕ) :=
  if iangle ≤ 0 ∨ 90 < iangle then
    .raise ⟨.valueError, "roche.findq: iangle out of range 0 to 90"⟩
  else if pwidth ≤ 0 ∨ 1/4 < pwidth then
    .raise ⟨.valueError, "roche.findq: pwidth out of range 0 to 0.25"⟩
  else if acc ≤ 0 ∨ 1/10 < acc then
    .raise ⟨.valueError, "roche.findq: acc <= 0 or acc > 0.1"⟩
  else if dq ≤ 0 ∨ 1/10 < dq then
    .raise ⟨.valueError, "roche.findq: dq <= 0 or dq > 0.1"⟩
  else
    let phi := pwidth / 2
    let elo := eng.fblink qlo iangle phi r0 StarSel.secondary 1 acc
    let ehi := eng.fblink qhi iangle phi r0 StarSel.secondary 1 acc
    if elo && ehi then .ok (-2, 0)
    else if !elo && !ehi then .ok (-1, 0)
    else
      let r := bisect (fun q => eng.fblink q iangle phi r0 StarSel.secondary 1 acc)
        dq (findqFuel qlo qhi dq) qlo qhi
      .ok ((r.1.1 + r.1.2) / 2, r.2)

/-- `roche.findq`: the value delivered to Python (the step count of the
instrumented version dropped). -/
def roche_findq (eng : RocheEngine) (r0 : Vec3)
    (iangle pwidth acc dq qlo qhi : ℚ) : PyResult ℚ :=
  match roche_findqT eng r0 iangle pwidth acc dq qlo qhi with
  | .ok p => .ok p.1
  | .raise e => .raise e

/-- The default values of the optional arguments of `roche.findq`, from the
declaration `double iangle, pwidth, acc=1.e-4, dq=1.e-5, qlo=0.001, qhi=2.0`
(roche.cc line 16) together with the parse format `"dd|dddd"`. -/
structure FindqDefaults where
  acc : ℚ
  dq : ℚ
  qlo : ℚ
  qhi : ℚ

/-- The defaults actually used by `roche_findq`. -/
def findqDefaults : FindqDefaults :=
  { acc := 1/10000, dq := 1/100000, qlo := 1/1000, qhi := 2 }

/-- `roche.findq` invoked with only the two mandatory arguments, as
`PyArg_ParseTuple` with format `"dd|dddd"` leaves the optional values at
their declared defaults. -/
def roche_findq_default (eng : RocheEngine) (r0 : Vec3)
    (iangle pwidth : ℚ) : PyResult ℚ :=
  roche_findq eng r0 iangle pwidth findqDefaults.acc findqDefaults.dq
    findqDefaults.qlo findqDefaults.qhi

/-- The docstring of `findq` in the `RocheMethods` table (roche.cc line
478), verbatim. -/
def findqDocstring : String :=
  "findq(i, pwidth, acc=1.e-4, dq=1.e-5, qlo=0.005, qhi=2.), computes mass ratio q for a given phase width and inclination"

/-- The default value of `qlo` advertised by `findqDocstring`
(the fragment `qlo=0.005`). -/
def findqDocQlo : ℚ := 5/1000

/-- `roche_fblink` from roche.cc (lines 62-100): validates the arguments,
then reports 1 or 0 according to the engine eclipse test, with the star
selector decoded as in the source (`star == 1 ? PRIMARY : SECONDARY`). -/
def roche_fblink (eng : RocheEngine)
    (q iangle phi x y z ffac acc : ℚ) (star : ℤ) : PyResult ℤ :=
  if q ≤ 0 then .raise ⟨.valueError, "roche.fblink: q <= 0"⟩
  else if iangle ≤ 0 ∨ 90 < iangle then
    .raise ⟨.valueError, "roche.fblink: iangle out of range 0 to 90"⟩
  else if ffac ≤ 0 ∨ 1 < ffac then
    .raise ⟨.valueError, "roche.fblink: ffac out of range 0 to 1"⟩
  else if acc ≤ 0 ∨ 1/10 < acc then
    .raise ⟨.valueError, "roche.fblink: acc <= 0 or acc > 0.1"⟩
  else if star < 1 ∨ 2 < star then
    .raise ⟨.valueError, "roche.fblink: star must be either 1 or 2"⟩
  else if eng.fblink q iangle phi ⟨x, y, z⟩
      (if star = 1 then .primary else .secondary) ffac acc then .ok 1
  else .ok 0

/-- `roche_ineg` from roche.cc (lines 105-143): validates the arguments,
then calls `Roche::ingress_egress`; when the engine reports that the point
is never eclipsed (the C function returns `false`), a `ValueError` with the
message "roche.ineg: point is not eclipsed" is raised. -/
def roche_ineg (eng : RocheEngine)
    (q iangle x y z ffac delta : ℚ) (star : ℤ) : PyResult (ℚ × ℚ) :=
  if q ≤ 0 then .raise ⟨.valueError, "roche.ineg: q <= 0"⟩
  else if iangle ≤ 0 ∨ 90 < iangle then
    .raise ⟨.valueError, "roche.ineg: iangle out of range 0 to 90"⟩
  else if ffac ≤ 0 ∨ 1 < ffac then
    .raise ⟨.valueError, "roche.ineg: ffac out of range 0 to 1"⟩
  else if delta ≤ 0 then .raise ⟨.valueError, "roche.ineg: delta <= 0"⟩
  else if star < 1 ∨ 2 < star then
    .raise ⟨.valueError, "roche.ineg: star must be either 1 or 2"⟩
  else
    match eng.ingress_egress q ffac iangle ⟨x, y, z⟩ delta
        (if star = 1 then .primary else .secondary) with
    | none => .raise ⟨.valueError, "roche.ineg: point is not eclipsed"⟩
    | some p => .ok p

/-- `roche_lobe1` from roche.cc (lines 148-180): validates `q` and `n`,
allocates a 2-by-n single-precision array, has the engine fill it, and
returns it; modelled as the list of the n (x, y) pairs of the array. -/
def roche_lobe1 (eng : RocheEngine) (q : ℚ) (n : ℤ) : PyResult (List (ℚ × ℚ)) :=
  if q ≤ 0 then .raise ⟨.valueError, "roche.lobe1: q <= 0"⟩
  else if n < 2 then .raise ⟨.valueError, "roche.lobe1: n < 2"⟩
  else
    let a := eng.lobe1 q n.toNat
    .ok (List.ofFn fun i => (a.1 i, a.2 i))

/-- `roche_lobe2` from roche.cc (lines 185-217), as `roche_lobe1` for the
secondary star (its `n < 2` message reads "roche.lobe2: n < 2 in" in the
source). -/
def roche_lobe2 (eng : RocheEngine) (q : ℚ) (n : ℤ) : PyResult (List (ℚ × ℚ)) :=
  if q ≤ 0 then .raise ⟨.valueError, "roche.lobe2: q <= 0"⟩
  else if n < 2 then .raise ⟨.valueError, "roche.lobe2: n < 2 in"⟩
  else
    let a := eng.lobe2 q n.toNat
    .ok (List.ofFn fun i => (a.1 i, a.2 i))

/-- `roche_stream` from roche.cc (lines 222-259): validates `q`, the radial
extent `rad` and `n`, then returns the n stream samples produced by
`Roche::streamr`. -/
def roche_stream (eng : RocheEngine) (q rad : ℚ) (n : ℤ) :
    PyResult (List (ℚ × ℚ)) :=
  if q ≤ 0 then .raise ⟨.valueError, "roche.stream: q <= 0"⟩
  else if rad < 0 ∨ 1 < rad then
    .raise ⟨.valueError, "roche.stream: rad < 0 or > 1."⟩
  else if n < 2 then .raise ⟨.valueError, "roche.stream: n < 2"⟩
  else
    let a := eng.streamr q rad n.toNat
    .ok (List.ofFn fun i => (a.1 i, a.2 i))

/-- `roche_strmnx` from roche.cc (lines 264-291): validates the arguments
(note the source tests `q < 0`, so `q = 0` is accepted), initialises the
trajectory with `Roche::strinit`, applies `Roche::strmnx` in a for loop of
exactly n passes, and returns the final position together with the
velocities transformed by `Roche::vtrans` once for star 1 and once for
star 2. -/
def roche_strmnx (eng : RocheEngine) (q : ℚ) (n : ℤ) (acc : ℚ) :
    PyResult (ℚ × ℚ × ℚ × ℚ × ℚ × ℚ) :=
  if q < 0 then .raise ⟨.valueError, "roche.strmnx: q <= 0"⟩
  else if n < 1 then .raise ⟨.valueError, "roche.strmnx: n < 1"⟩
  else if acc ≤ 0 then .raise ⟨.valueError, "roche.strmnx: acc <= 0"⟩
  else
    let p := (List.range n.toNat).foldl
      (fun s _ => eng.strmnx q s.1 s.2 acc) (eng.strinit q)
    let t1 := eng.vtrans q 1 p.1.x p.1.y p.2.x p.2.y
    let t2 := eng.vtrans q 2 p.1.x p.1.y p.2.x p.2.y
    .ok (p.1.x, p.1.y, t1.1, t1.2, t2.1, t2.2)

/-- `roche_vlobe1` from roche.cc (lines 297-329). -/
def roche_vlobe1 (eng : RocheEngine) (q : ℚ) (n : ℤ) : PyResult (List (ℚ × ℚ)) :=
  if q ≤ 0 then .raise ⟨.valueError, "roche.vlobe1: q <= 0"⟩
  else if n < 2 then .raise ⟨.valueError, "roche.vlobe1: n < 2"⟩
  else
    let a := eng.vlobe1 q n.toNat
    .ok (List.ofFn fun i => (a.1 i, a.2 i))

/-- `roche_vlobe2` from roche.cc (lines 335-367). -/
def roche_vlobe2 (eng : RocheEngine) (q : ℚ) (n : ℤ) : PyResult (List (ℚ × ℚ)) :=
  if q ≤ 0 then .raise ⟨.valueError, "roche.vlobe2: q <= 0"⟩
  else if n < 2 then .raise ⟨.valueError, "roche.vlobe2: n < 2"⟩
  else
    let a := eng.vlobe2 q n.toNat
    .ok (List.ofFn fun i => (a.1 i, a.2 i))

/-- `roche_vstream` from roche.cc (lines 372-418).  The stream-type check is
transcribed verbatim from the source line 388, `if (stype < 1 && stype > 2)`:
a conjunction, which no integer satisfies, rather than the disjunction the
error message suggests.  A `Roche_Error` thrown by `Roche::vstrreg` is
caught and re-raised as a `ValueError` whose message prepends
"roche.vstream: ". -/
def roche_vstream (eng : RocheEngine) (q step : ℚ) (stype n : ℤ) :
    PyResult (List (ℚ × ℚ)) :=
  if q ≤ 0 then .raise ⟨.valueError, "roche.vstream: q <= 0"⟩
  else if step ≤ 0 ∨ 1 ≤ step then
    .raise ⟨.valueError, "roche.vstream: step <= 0 or >= 1."⟩
  else if stype < 1 ∧ 2 < stype then
    .raise ⟨.valueError, "roche.vstream: stype must be 1 or 2"⟩
  else if n < 2 then .raise ⟨.valueError, "roche.vstream: n < 2"⟩
  else
    match eng.vstrreg q step n.toNat stype with
    | .error msg => .raise ⟨.valueError, "roche.vstream: " ++ msg⟩
    | .ok a => .ok (List.ofFn fun i => (a.1 i, a.2 i))

/-- Round-half-to-even of a rational to an integer, the IEEE-754 default
rounding used when a C double is narrowed to float. -/
def roundHalfEven (x : ℚ) : ℤ :=
  let f := ⌊x⌋
  let r := x - (f : ℚ)
  if r < 1/2 then f
  else if 1/2 < r then f + 1
  else if f % 2 = 0 then f else f + 1

/-- The binade exponent of a positive rational: the `e` with
`2 ^ e ≤ q < 2 ^ (e + 1)`, computed from the bit lengths of numerator and
denominator. -/
def qexp (q : ℚ) : ℤ :=
  let e : ℤ := (Nat.log2 q.num.natAbs : ℤ) - (Nat.log2 q.den : ℤ)
  if (2:ℚ) ^ e ≤ q then e else e - 1

/-- Models the narrowing conversion from C double to C float performed by
`Py_BuildValue` with format `"f"`: round-to-nearest-even at 24 significant
bits, with the exponent clamped below at -126 (subnormal range).  Exact for
every finite value in the binary32 range; values beyond that range
(overflow to infinity) are outside this model. -/
def float32round (x : ℚ) : ℚ :=
  if x = 0 then 0
  else
    let a := |x|
    let e := max (qexp a) (-126)
    let m := roundHalfEven (a * 2 ^ (23 - e))
    let v : ℚ := (m : ℚ) * 2 ^ (e - 23)
    if x < 0 then -v else v

/-- `roche_xl1` from roche.cc (lines 423-435): validates `q < 0` (so `q = 0`
is accepted), computes the inner Lagrangian point as a double and delivers
it through `Py_BuildValue("f", x)`, i.e. narrowed to single precision. -/
def roche_xl1 (eng : RocheEngine) (q : ℚ) : PyResult ℚ :=
  if q < 0 then .raise ⟨.valueError, "roche.xl1: q <= 0"⟩
  else .ok (float32round (eng.xl1 q))

/-- `roche_xl2` from roche.cc (lines 440-452), as `roche_xl1` for L2. -/
def roche_xl2 (eng : RocheEngine) (q : ℚ) : PyResult ℚ :=
  if q < 0 then .raise ⟨.valueError, "roche.xl2: q <= 0"⟩
  else .ok (float32round (eng.xl2 q))

/-- `roche_xl3` from roche.cc (lines 457-469), as `roche_xl1` for L3 (the
source message reads "roche.cl3", a typo kept verbatim). -/
def roche_xl3 (eng : RocheEngine) (q : ℚ) : PyResult ℚ :=
  if q < 0 then .raise ⟨.valueError, "roche.cl3: q <= 0"⟩
  else .ok (float32round (eng.xl3 q))

/-- The zero vector, used as a concrete stand-in for the default-constructed
`Subs::Vec3` in witnesses. -/
def v0 : Vec3 := ⟨0, 0, 0⟩

/-- A concrete engine all of whose routines return zeros; its eclipse tester
is constantly `false` and its `ingress_egress` always reports no eclipse.
Used to instantiate theorems at concrete inputs. -/
def engZero : RocheEngine where
  fblink := fun _ _ _ _ _ _ _ => false
  ingress_egress := fun _ _ _ _ _ _ => none
  lobe1 := fun _ _ => (fun _ => 0, fun _ => 0)
  lobe2 := fun _ _ => (fun _ => 0, fun _ => 0)
  streamr := fun _ _ _ => (fun _ => 0, fun _ => 0)
  strinit := fun _ => (⟨0, 0, 0⟩, ⟨0, 0, 0⟩)
  strmnx := fun _ r v _ => (r, v)
  vlobe1 := fun _ _ => (fun _ => 0, fun _ => 0)
  vlobe2 := fun _ _ => (fun _ => 0, fun _ => 0)
  vstrreg := fun _ _ _ _ => .ok (fun _ => 0, fun _ => 0)
  vtrans := fun _ _ _ _ _ _ => (0, 0)
  xl1 := fun _ => 0
  xl2 := fun _ => 0
  xl3 := fun _ => 0

/-- Like `engZero`, but the eclipse tester is constantly `true`. -/
def engTrue : RocheEngine :=
  { engZero with fblink := fun _ _ _ _ _ _ _ => true }

/-- Like `engZero`, but the eclipse tester reports an eclipse exactly when
the mass ratio is at least 1 (a monotone tester, the orientation the findq
bisection is written for). -/
def engStep : RocheEngine :=
  { engZero with fblink := fun q _ _ _ _ _ _ => decide (1 ≤ q) }

/-- Like `engZero`, but the eclipse tester reports an eclipse exactly when
the mass ratio is below 1/2 (the reversed orientation). -/
def engLt : RocheEngine :=
  { engZero with fblink := fun q _ _ _ _ _ _ => decide (q < 1/2) }

/-- Like `engZero`, but `vstrreg` always throws a `Roche_Error` with the
message "integration failure". -/
def engThrow : RocheEngine :=
  { engZero with vstrreg := fun _ _ _ _ => .error "integration failure" }

/-- Like `engZero`, but the Lagrangian point routines all return 1/10, a
value that is not representable in IEEE single precision. -/
def engTenth : RocheEngine :=
  { engZero with xl1 := fun _ => 1/10, xl2 := fun _ => 1/10, xl3 := fun _ => 1/10 }

/-! ### Properties of the bisection loop -/

/-- When the loop condition `qhi - qlo > dq` fails, the loop body never
executes: the bracket is returned unchanged with a step count of zero,
whatever the fuel. -/
theorem bisect_stop (E : ℚ → Bool) (dq : ℚ) (fuel : ℕ) (lo hi : ℚ)
    (h : ¬ dq < hi - lo) : bisect E dq fuel lo hi = ((lo, hi), 0) := by
  cases fuel <;> simp [bisect, h]

/-- The bisection bracket stays inside the initial bracket and stays
ordered. -/
theorem bisect_bounds (E : ℚ → Bool) (dq : ℚ) (fuel : ℕ) :
    ∀ lo hi : ℚ, lo ≤ hi →
      lo ≤ (bisect E dq fuel lo hi).1.1 ∧
        (bisect E dq fuel lo hi).1.1 ≤ (bisect E dq fuel lo hi).1.2 ∧
        (bisect E dq fuel lo hi).1.2 ≤ hi := by
  induction fuel with
  | zero => intro lo hi h; simp only [bisect]; exact ⟨le_rfl, h, le_rfl⟩
  | succ f ih =>
    intro lo hi h
    by_cases hc : dq < hi - lo
    · by_cases hE : E ((lo + hi) / 2)
      · have h1 : lo ≤ (lo + hi) / 2 := by linarith
        have hr := ih lo ((lo + hi) / 2) h1
        simp only [bisect, if_pos hc, if_pos hE]
        exact ⟨hr.1, hr.2.1, hr.2.2.trans (by linarith)⟩
      · have h1 : (lo + hi) / 2 ≤ hi := by linarith
        have hr := ih ((lo + hi) / 2) hi h1
        simp only [bisect, if_pos hc, if_neg hE]
        exact ⟨le_trans (by linarith) hr.1, hr.2.1, hr.2.2⟩
    · rw [bisect_stop E dq _ lo hi hc]; exact ⟨le_rfl, h, le_rfl⟩

/-- With enough fuel the final bracket has width at most `dq`: the width
halves each pass. -/
theorem bisect_width (E : ℚ → Bool) (dq : ℚ) (fuel : ℕ) :
    ∀ lo hi : ℚ, hi - lo ≤ dq * 2 ^ fuel →
      (bisect E dq fuel lo hi).1.2 - (bisect E dq fuel lo hi).1.1 ≤ dq := by
  induction fuel with
  | zero => intro lo hi h; simp only [bisect]; simpa using h
  | succ f ih =>
    intro lo hi h
    by_cases hc : dq < hi - lo
    · rw [pow_succ] at h
      have hh1 : (lo + hi) / 2 - lo ≤ dq * 2 ^ f := by ring_nf at h ⊢; linarith
      have hh2 : hi - (lo + hi) / 2 ≤ dq * 2 ^ f := by ring_nf at h ⊢; linarith
      by_cases hE : E ((lo + hi) / 2)
      · simp only [bisect, if_pos hc, if_pos hE]; exact ih lo _ hh1
      · simp only [bisect, if_pos hc, if_neg hE]; exact ih _ hi hh2
    · rw [bisect_stop E dq _ lo hi hc]; simpa using not_lt.mp hc

/-- The loop keeps `fblink` false at the low end and true at the high end,
when it starts that way: each pass replaces the end whose value the midpoint
shares. -/
theorem bisect_polarity (E : ℚ → Bool) (dq : ℚ) (fuel : ℕ) :
    ∀ lo hi : ℚ, E lo = false → E hi = true →
      E (bisect E dq fuel lo hi).1.1 = false ∧
        E (bisect E dq fuel lo hi).1.2 = true := by
  induction fuel with
  | zero => intro lo hi hl hh; simp only [bisect]; exact ⟨hl, hh⟩
  | succ f ih =>
    intro lo hi hl hh
    by_cases hc : dq < hi - lo
    · by_cases hE : E ((lo + hi) / 2)
      · simp only [bisect, if_pos hc, if_pos hE]
        exact ih lo _ hl (by simpa using hE)
      · simp only [bisect, if_pos hc, if_neg hE]
        exact ih _ hi (by simpa using hE) hh
    · rw [bisect_stop E dq _ lo hi hc]; exact ⟨hl, hh⟩

/-- `findqFuel` is enough fuel: `dq * 2 ^ findqFuel` reaches the initial
bracket width. -/
theorem findqFuel_spec (qlo qhi dq : ℚ) (hdq : 0 < dq) :
    qhi - qlo ≤ dq * 2 ^ findqFuel qlo qhi dq := by
  by_cases hw : qhi - qlo ≤ 0
  · have hpos : (0:ℚ) < dq * 2 ^ findqFuel qlo qhi dq := by positivity
    linarith
  · push_neg at hw
    set x := (qhi - qlo) / dq with hx
    have hx0 : 0 < x := div_pos hw hdq
    have hnum : (0:ℤ) ≤ x.num := Rat.num_nonneg.mpr hx0.le
    have h1 : x ≤ ((x.num.toNat : ℕ) : ℚ) := by
      have hcast : ((x.num.toNat : ℕ) : ℚ) = ((x.num : ℤ) : ℚ) := by
        exact_mod_cast congrArg (fun z : ℤ => (z : ℚ)) (Int.toNat_of_nonneg hnum)
      rw [hcast]
      calc x = (x.num : ℚ) / (x.den : ℚ) := (Rat.num_div_den x).symm
        _ ≤ (x.num : ℚ) := by
            apply div_le_self
            · exact_mod_cast hnum
            · exact_mod_cast x.den_pos
    have h2 : ((x.num.toNat : ℕ) : ℚ) ≤ 2 ^ x.num.toNat := by
      exact_mod_cast (Nat.lt_two_pow x.num.toNat).le
    have hfuel : findqFuel qlo qhi dq = x.num.toNat := by
      rw [findqFuel, ← hx]
    have hxle : x ≤ 2 ^ findqFuel qlo qhi dq := by
      rw [hfuel]; exact h1.trans h2
    have hval : qhi - qlo = dq * x := by
      rw [hx]; field_simp
    rw [hval]
    exact mul_le_mul_of_nonneg_left hxle hdq.le

/-- A `foldl` over `List.range n` that ignores the index is `n`-fold
iteration: the shape of the C for loop in `roche_strmnx`. -/
theorem foldl_range_const {α : Type} (f : α → α) (a : α) (n : ℕ) :
    (List.range n).foldl (fun s _ => f s) a = f^[n] a := by
  induction n with
  | zero => simp
  | succ m ih =>
    rw [List.range_succ, List.foldl_append, ih, Function.iterate_succ_apply']
    rfl

/-! ### Claim theorems -/

/-- C1: for every inclination, phase width, accuracy and step tolerance
passing validation and every bracket, if the eclipse tester is true at both
bracket ends then findq returns exactly -2; if false at both ends, exactly
-1; in both degenerate cases the bisection loop body runs zero times. -/
theorem findq_degenerate_sentinels (eng : RocheEngine) (r0 : Vec3)
    (iangle pwidth acc dq qlo qhi : ℚ)
    (hi1 : 0 < iangle) (hi2 : iangle ≤ 90)
    (hp1 : 0 < pwidth) (hp2 : pwidth ≤ 1/4)
    (ha1 : 0 < acc) (ha2 : acc ≤ 1/10)
    (hd1 : 0 < dq) (hd2 : dq ≤ 1/10) :
    (eng.fblink qlo iangle (pwidth/2) r0 .secondary 1 acc = true →
      eng.fblink qhi iangle (pwidth/2) r0 .secondary 1 acc = true →
      roche_findq eng r0 iangle pwidth acc dq qlo qhi = .ok (-2) ∧
        roche_findqT eng r0 iangle pwidth acc dq qlo qhi = .ok (-2, 0)) ∧
    (eng.fblink qlo iangle (pwidth/2) r0 .secondary 1 acc = false →
      eng.fblink qhi iangle (pwidth/2) r0 .secondary 1 acc = false →
      roche_findq eng r0 iangle pwidth acc dq qlo qhi = .ok (-1) ∧
        roche_findqT eng r0 iangle pwidth acc dq qlo qhi = .ok (-1, 0)) := by
  have e1 : ¬ (iangle ≤ 0 ∨ 90 < iangle) :=
    not_or.mpr ⟨not_le.mpr hi1, not_lt.mpr hi2⟩
  have e2 : ¬ (pwidth ≤ 0 ∨ 1/4 < pwidth) :=
    not_or.mpr ⟨not_le.mpr hp1, not_lt.mpr hp2⟩
  have e3 : ¬ (acc ≤ 0 ∨ 1/10 < acc) :=
    not_or.mpr ⟨not_le.mpr ha1, not_lt.mpr ha2⟩
  have e4 : ¬ (dq ≤ 0 ∨ 1/10 < dq) :=
    not_or.mpr ⟨not_le.mpr hd1, not_lt.mpr hd2⟩
  constructor
  · intro hlo hhi
    have hT : roche_findqT eng r0 iangle pwidth acc dq qlo qhi = .ok (-2, 0) := by
      unfold roche_findqT
      rw [if_neg e1, if_neg e2, if_neg e3, if_neg e4]
      simp [hlo, hhi]
    exact ⟨by unfold roche_findq; rw [hT], hT⟩
  · intro hlo hhi
    have hT : roche_findqT eng r0 iangle pwidth acc dq qlo qhi = .ok (-1, 0) := by
      unfold roche_findqT
      rw [if_neg e1, if_neg e2, if_neg e3, if_neg e4]
      simp [hlo, hhi]
    exact ⟨by unfold roche_findq; rw [hT], hT⟩

/-- C1 witness: concrete degenerate brackets, with an always-true tester and
an always-false tester. -/
theorem findq_degenerate_sentinels_witness :
    roche_findqT engTrue v0 90 (1/10) (1/100) (1/100) (1/2) 1 = .ok (-2, 0) ∧
    roche_findqT engZero v0 90 (1/10) (1/100) (1/100) (1/2) 1 = .ok (-1, 0) :=
  ⟨((findq_degenerate_sentinels engTrue v0 90 (1/10) (1/100) (1/100) (1/2) 1
      (by with_unfolding_all decide) (by with_unfolding_all decide) (by with_unfolding_all decide) (by with_unfolding_all decide) (by with_unfolding_all decide) (by with_unfolding_all decide)
      (by with_unfolding_all decide) (by with_unfolding_all decide)).1 rfl rfl).2,
   ((findq_degenerate_sentinels engZero v0 90 (1/10) (1/100) (1/100) (1/2) 1
      (by with_unfolding_all decide) (by with_unfolding_all decide) (by with_unfolding_all decide) (by with_unfolding_all decide) (by with_unfolding_all decide) (by with_unfolding_all decide)
      (by with_unfolding_all decide) (by with_unfolding_all decide)).2 rfl rfl).2⟩

/-- C8: findq performs no validation on the bracket: for every `qlo`, `qhi`
(reversed or non-positive included) the call succeeds once the four
validated parameters pass; and when the initial width is already at most
`dq` while the tester differs at the ends, the loop body never runs and the
unchanged midpoint `(qlo + qhi) / 2` is returned. -/
theorem findq_no_bracket_validation (eng : RocheEngine) (r0 : Vec3)
    (iangle pwidth acc dq qlo qhi : ℚ)
    (hi1 : 0 < iangle) (hi2 : iangle ≤ 90)
    (hp1 : 0 < pwidth) (hp2 : pwidth ≤ 1/4)
    (ha1 : 0 < acc) (ha2 : acc ≤ 1/10)
    (hd1 : 0 < dq) (hd2 : dq ≤ 1/10) :
    (∃ v, roche_findq eng r0 iangle pwidth acc dq qlo qhi = .ok v) ∧
    (qhi - qlo ≤ dq →
      eng.fblink qlo iangle (pwidth/2) r0 .secondary 1 acc ≠
        eng.fblink qhi iangle (pwidth/2) r0 .secondary 1 acc →
      roche_findqT eng r0 iangle pwidth acc dq qlo qhi =
        .ok ((qlo + qhi) / 2, 0)) := by
  have e1 : ¬ (iangle ≤ 0 ∨ 90 < iangle) :=
    not_or.mpr ⟨not_le.mpr hi1, not_lt.mpr hi2⟩
  have e2 : ¬ (pwidth ≤ 0 ∨ 1/4 < pwidth) :=
    not_or.mpr ⟨not_le.mpr hp1, not_lt.mpr hp2⟩
  have e3 : ¬ (acc ≤ 0 ∨ 1/10 < acc) :=
    not_or.mpr ⟨not_le.mpr ha1, not_lt.mpr ha2⟩
  have e4 : ¬ (dq ≤ 0 ∨ 1/10 < dq) :=
    not_or.mpr ⟨not_le.mpr hd1, not_lt.mpr hd2⟩
  constructor
  · unfold roche_findq roche_findqT
    rw [if_neg e1, if_neg e2, if_neg e3, if_neg e4]
    cases hlo : eng.fblink qlo iangle (pwidth/2) r0 .secondary 1 acc <;>
      cases hhi : eng.fblink qhi iangle (pwidth/2) r0 .secondary 1 acc <;>
      simp [hlo, hhi]
  · intro hwidth hne
    have hstop : ¬ dq < qhi - qlo := not_lt.mpr hwidth
    unfold roche_findqT
    rw [if_neg e1, if_neg e2, if_neg e3, if_neg e4]
    cases hlo : eng.fblink qlo iangle (pwidth/2) r0 .secondary 1 acc <;>
      cases hhi : eng.fblink qhi iangle (pwidth/2) r0 .secondary 1 acc
    · exact absurd (hlo.trans hhi.symm) hne
    · simp only [hlo, hhi, Bool.false_and, Bool.not_false, Bool.not_true,
        Bool.and_false, if_false, Bool.false_eq_true]
      rw [bisect_stop _ dq _ qlo qhi hstop]
    · simp only [hlo, hhi, Bool.true_and, Bool.not_false, Bool.not_true,
        Bool.false_and, if_false, Bool.false_eq_true]
      rw [bisect_stop _ dq _ qlo qhi hstop]
    · exact absurd (hlo.trans hhi.symm) hne

/-- C8 witness: a reversed, partly negative bracket succeeds, and a width-dq
bracket with differing tester values returns its midpoint with zero loop
passes. -/
theorem findq_no_bracket_validation_witness :
    (∃ v, roche_findq engStep v0 90 (1/10) (1/100) (1/100) 3 (-1) = .ok v) ∧
    ((1:ℚ) - (995/1000) ≤ 1/100 ∧
      roche_findqT engStep v0 90 (1/10) (1/100) (1/100) (995/1000) 1 =
        .ok (((995/1000) + 1) / 2, 0)) :=
  ⟨(findq_no_bracket_validation engStep v0 90 (1/10) (1/100) (1/100) 3 (-1)
      (by with_unfolding_all decide) (by with_unfolding_all decide) (by with_unfolding_all decide) (by with_unfolding_all decide) (by with_unfolding_all decide) (by with_unfolding_all decide)
      (by with_unfolding_all decide) (by with_unfolding_all decide)).1,
   ⟨by with_unfolding_all decide,
    (findq_no_bracket_validation engStep v0 90 (1/10) (1/100) (1/100) (995/1000) 1
      (by with_unfolding_all decide) (by with_unfolding_all decide) (by with_unfolding_all decide) (by with_unfolding_all decide) (by with_unfolding_all decide) (by with_unfolding_all decide)
      (by with_unfolding_all decide) (by with_unfolding_all decide)).2 (by with_unfolding_all decide) (by with_unfolding_all decide)⟩⟩

/-- C2 (amended): when the tester differs at the ends of an ordered bracket,
findq bisects until the bracket width is at most `dq` and returns the
midpoint of the final bracket, which lies within the original bracket; when
moreover the lower end is not eclipsed and the upper end is eclipsed (the
orientation the loop is written for), the tester transitions across the
final sub-bracket of width at most `dq` that contains the returned value.
The transition clause of the original claim fails for the reversed
orientation: see the counterexample. -/
theorem findq_bisection_midpoint (eng : RocheEngine) (r0 : Vec3)
    (iangle pwidth acc dq qlo qhi : ℚ)
    (hi1 : 0 < iangle) (hi2 : iangle ≤ 90)
    (hp1 : 0 < pwidth) (hp2 : pwidth ≤ 1/4)
    (ha1 : 0 < acc) (ha2 : acc ≤ 1/10)
    (hd1 : 0 < dq) (hd2 : dq ≤ 1/10)
    (hlh : qlo ≤ qhi)
    (hne : eng.fblink qlo iangle (pwidth/2) r0 .secondary 1 acc ≠
      eng.fblink qhi iangle (pwidth/2) r0 .secondary 1 acc) :
    ∃ a b : ℚ,
      roche_findq eng r0 iangle pwidth acc dq qlo qhi = .ok ((a + b) / 2) ∧
      qlo ≤ a ∧ a ≤ b ∧ b ≤ qhi ∧ b - a ≤ dq ∧
      (eng.fblink qlo iangle (pwidth/2) r0 .secondary 1 acc = false →
        eng.fblink a iangle (pwidth/2) r0 .secondary 1 acc = false ∧
          eng.fblink b iangle (pwidth/2) r0 .secondary 1 acc = true) := by
  have e1 : ¬ (iangle ≤ 0 ∨ 90 < iangle) :=
    not_or.mpr ⟨not_le.mpr hi1, not_lt.mpr hi2⟩
  have e2 : ¬ (pwidth ≤ 0 ∨ 1/4 < pwidth) :=
    not_or.mpr ⟨not_le.mpr hp1, not_lt.mpr hp2⟩
  have e3 : ¬ (acc ≤ 0 ∨ 1/10 < acc) :=
    not_or.mpr ⟨not_le.mpr ha1, not_lt.mpr ha2⟩
  have e4 : ¬ (dq ≤ 0 ∨ 1/10 < dq) :=
    not_or.mpr ⟨not_le.mpr hd1, not_lt.mpr hd2⟩
  refine ⟨(bisect (fun q => eng.fblink q iangle (pwidth/2) r0 .secondary 1 acc)
      dq (findqFuel qlo qhi dq) qlo qhi).1.1,
    (bisect (fun q => eng.fblink q iangle (pwidth/2) r0 .secondary 1 acc)
      dq (findqFuel qlo qhi dq) qlo qhi).1.2, ?_, ?_, ?_, ?_, ?_, ?_⟩
  · unfold roche_findq roche_findqT
    rw [if_neg e1, if_neg e2, if_neg e3, if_neg e4]
    cases hlo : eng.fblink qlo iangle (pwidth/2) r0 .secondary 1 acc <;>
      cases hhi : eng.fblink qhi iangle (pwidth/2) r0 .secondary 1 acc
    · exact absurd (hlo.trans hhi.symm) hne
    · simp [hlo, hhi]
    · simp [hlo, hhi]
    · exact absurd (hlo.trans hhi.symm) hne
  · exact (bisect_bounds _ dq _ qlo qhi hlh).1
  · exact (bisect_bounds _ dq _ qlo qhi hlh).2.1
  · exact (bisect_bounds _ dq _ qlo qhi hlh).2.2
  · exact bisect_width _ dq _ qlo qhi (findqFuel_spec qlo qhi dq hd1)
  · intro hlo
    have hhi : eng.fblink qhi iangle (pwidth/2) r0 .secondary 1 acc = true := by
      cases hq : eng.fblink qhi iangle (pwidth/2) r0 .secondary 1 acc
      · exact absurd (hlo.trans hq.symm) hne
      · rfl
    exact bisect_polarity
      (fun q => eng.fblink q iangle (pwidth/2) r0 .secondary 1 acc)
      dq (findqFuel qlo qhi dq) qlo qhi hlo hhi

/-- C2 witness: a monotone tester switching at mass ratio 1 over the
bracket [0, 2]. -/
theorem findq_bisection_midpoint_witness :
    ∃ a b : ℚ,
      roche_findq engStep v0 90 (1/10) (1/100) (1/100) 0 2 = .ok ((a + b) / 2) ∧
      (0:ℚ) ≤ a ∧ a ≤ b ∧ b ≤ 2 ∧ b - a ≤ 1/100 ∧
      (engStep.fblink 0 90 ((1/10)/2) v0 .secondary 1 (1/100) = false →
        engStep.fblink a 90 ((1/10)/2) v0 .secondary 1 (1/100) = false ∧
          engStep.fblink b 90 ((1/10)/2) v0 .secondary 1 (1/100) = true) :=
  findq_bisection_midpoint engStep v0 90 (1/10) (1/100) (1/100) 0 2
    (by with_unfolding_all decide) (by with_unfolding_all decide)
    (by with_unfolding_all decide) (by with_unfolding_all decide)
    (by with_unfolding_all decide) (by with_unfolding_all decide)
    (by with_unfolding_all decide) (by with_unfolding_all decide)
    (by with_unfolding_all decide) (by with_unfolding_all decide)

/-- C2 counterexample: with the reversed orientation (eclipsed at the low
end, not at the high end) the claimed transition property fails.  With the
tester "eclipsed exactly below 1/2" on the bracket [0, 2] with `dq = 1/10`,
findq returns 63/32, and the tester is constant on every sub-interval of
[0, 2] of width at most 1/10 that contains 63/32: no transition happens
near the returned value (the tester transitions at 1/2, far away). -/
theorem findq_transition_counterexample :
    roche_findq engLt v0 90 (1/4) (1/10) (1/10) 0 2 = .ok (63/32) ∧
    ∀ a b : ℚ, 0 ≤ a → b ≤ 2 → b - a ≤ 1/10 → a ≤ 63/32 → (63:ℚ)/32 ≤ b →
      engLt.fblink a 90 ((1/4)/2) v0 .secondary 1 (1/10) =
        engLt.fblink b 90 ((1/4)/2) v0 .secondary 1 (1/10) := by
  constructor
  · with_unfolding_all rfl
  · intro a b ha0 hb2 hw ha hb
    have h1 : ¬ (a < 1/2) := by linarith
    have h2 : ¬ (b < 1/2) := by linarith
    show decide (a < 1/2) = decide (b < 1/2)
    rw [decide_eq_false h1, decide_eq_false h2]

/-- C3: the stream-type guard of `roche_vstream` is vacuous.  The source
line 388 tests `stype < 1 && stype > 2`, a conjunction no integer satisfies
(the message "stype must be 1 or 2" shows a disjunction was intended), so a
stream-type outside 1..2 is NOT rejected: the call with `stype = 3` passes
validation and the engine integration is invoked with stream-type 3. -/
theorem vstream_stype_guard_vacuous :
    (∀ s : ℤ, decide (s < 1 ∧ 2 < s) = false) ∧
    roche_vstream engZero 1 (1/100) 3 60 =
      .ok (List.ofFn fun _ : Fin 60 => ((0:ℚ), (0:ℚ))) := by
  constructor
  · intro s
    exact decide_eq_false (by omega)
  · with_unfolding_all rfl

/-- C4 counterexample: the "domain" failures (point never eclipsed in
`roche_ineg`, integration failure in `roche_vstream`) are raised with the
same exception kind (`PyExc_ValueError`) as the precondition violations
(here `q <= 0`), so a caller cannot branch on the error kind. -/
theorem error_kinds_not_distinguishable :
    ∃ e1 e2 e3 e4 : PyErr,
      roche_ineg engZero 1 90 0 0 0 1 (1/10000000) 2 = .raise e1 ∧
      roche_ineg engZero (-1) 90 0 0 0 1 (1/10000000) 2 = .raise e2 ∧
      roche_vstream engThrow 1 (1/100) 1 60 = .raise e3 ∧
      roche_vstream engThrow (-1) (1/100) 1 60 = .raise e4 ∧
      e1.exc = e2.exc ∧ e3.exc = e4.exc :=
  ⟨⟨.valueError, "roche.ineg: point is not eclipsed"⟩,
   ⟨.valueError, "roche.ineg: q <= 0"⟩,
   ⟨.valueError, "roche.vstream: integration failure"⟩,
   ⟨.valueError, "roche.vstream: q <= 0"⟩,
   by with_unfolding_all rfl, by with_unfolding_all rfl,
   by with_unfolding_all rfl, by with_unfolding_all rfl, rfl, rfl⟩

/-- C4 (amended): every failure of `roche_ineg` and `roche_vstream` -
domain failures included - is raised as the same exception kind,
`PyExc_ValueError`; the two situations are distinguishable only by the
message text ("roche.ineg: point is not eclipsed", "roche.vstream: "
followed by the engine text), not by the error kind. -/
theorem domain_errors_are_valueerror (eng : RocheEngine)
    (q iangle x y z ffac delta step : ℚ) (star stype n : ℤ) (msg : String)
    (hq : 0 < q) (hi1 : 0 < iangle) (hi2 : iangle ≤ 90)
    (hf1 : 0 < ffac) (hf2 : ffac ≤ 1) (hdel : 0 < delta)
    (hs1 : 1 ≤ star) (hs2 : star ≤ 2)
    (hng : eng.ingress_egress q ffac iangle ⟨x, y, z⟩ delta
      (if star = 1 then .primary else .secondary) = none)
    (hst1 : 0 < step) (hst2 : step < 1) (hn : 2 ≤ n)
    (hthrow : eng.vstrreg q step n.toNat stype = .error msg) :
    roche_ineg eng q iangle x y z ffac delta star =
      .raise ⟨.valueError, "roche.ineg: point is not eclipsed"⟩ ∧
    roche_vstream eng q step stype n =
      .raise ⟨.valueError, "roche.vstream: " ++ msg⟩ ∧
    (∀ qbad : ℚ, qbad ≤ 0 →
      roche_ineg eng qbad iangle x y z ffac delta star =
        .raise ⟨.valueError, "roche.ineg: q <= 0"⟩ ∧
      roche_vstream eng qbad step stype n =
        .raise ⟨.valueError, "roche.vstream: q <= 0"⟩) := by
  refine ⟨?_, ?_, ?_⟩
  · unfold roche_ineg
    rw [if_neg (not_le.mpr hq),
      if_neg (not_or.mpr ⟨not_le.mpr hi1, not_lt.mpr hi2⟩),
      if_neg (not_or.mpr ⟨not_le.mpr hf1, not_lt.mpr hf2⟩),
      if_neg (not_le.mpr hdel),
      if_neg (not_or.mpr ⟨not_lt.mpr hs1, not_lt.mpr hs2⟩), hng]
  · unfold roche_vstream
    rw [if_neg (not_le.mpr hq),
      if_neg (not_or.mpr ⟨not_le.mpr hst1, not_le.mpr hst2⟩),
      if_neg (by intro h; omega : ¬ (stype < 1 ∧ 2 < stype)),
      if_neg (not_lt.mpr hn), hthrow]
  · intro qbad hqbad
    constructor
    · unfold roche_ineg
      rw [if_pos hqbad]
    · unfold roche_vstream
      rw [if_pos hqbad]

/-- C4 amended witness: concrete engines realising the never-eclipsed and
the throwing cases. -/
theorem domain_errors_are_valueerror_witness :
    roche_ineg engThrow 1 90 0 0 0 1 (1/10000000) 2 =
      .raise ⟨.valueError, "roche.ineg: point is not eclipsed"⟩ ∧
    roche_vstream engThrow 1 (1/100) 1 60 =
      .raise ⟨.valueError, "roche.vstream: " ++ "integration failure"⟩ ∧
    (∀ qbad : ℚ, qbad ≤ 0 →
      roche_ineg engThrow qbad 90 0 0 0 1 (1/10000000) 2 =
        .raise ⟨.valueError, "roche.ineg: q <= 0"⟩ ∧
      roche_vstream engThrow qbad (1/100) 1 60 =
        .raise ⟨.valueError, "roche.vstream: q <= 0"⟩) :=
  domain_errors_are_valueerror engThrow 1 90 0 0 0 1 (1/10000000) (1/100) 2 1 60
    "integration failure"
    (by with_unfolding_all decide) (by with_unfolding_all decide)
    (by with_unfolding_all decide) (by with_unfolding_all decide)
    (by with_unfolding_all decide) (by with_unfolding_all decide)
    (by with_unfolding_all decide) (by with_unfolding_all decide)
    rfl
    (by with_unfolding_all decide) (by with_unfolding_all decide)
    (by with_unfolding_all decide) rfl

/-- C5: each documented boundary literal is rejected with the corresponding
`ValueError` before any computation or output allocation: `lobe1` with
`n = 1`; the eclipse test with inclination 0 or 91; `vstream` with
`step = 1`; `findq` with accuracy 0.2.  The engine is universally
quantified in every part, so none of these rejections involves any engine
call, and the rejected calls allocate no output. -/
theorem boundary_literals_rejected :
    (∀ (eng : RocheEngine) (q : ℚ), 0 < q →
      roche_lobe1 eng q 1 = .raise ⟨.valueError, "roche.lobe1: n < 2"⟩) ∧
    (∀ (eng : RocheEngine) (q phi x y z ffac acc : ℚ) (star : ℤ), 0 < q →
      roche_fblink eng q 0 phi x y z ffac acc star =
        .raise ⟨.valueError, "roche.fblink: iangle out of range 0 to 90"⟩) ∧
    (∀ (eng : RocheEngine) (q phi x y z ffac acc : ℚ) (star : ℤ), 0 < q →
      roche_fblink eng q 91 phi x y z ffac acc star =
        .raise ⟨.valueError, "roche.fblink: iangle out of range 0 to 90"⟩) ∧
    (∀ (eng : RocheEngine) (q : ℚ) (stype n : ℤ), 0 < q →
      roche_vstream eng q 1 stype n =
        .raise ⟨.valueError, "roche.vstream: step <= 0 or >= 1."⟩) ∧
    (∀ (eng : RocheEngine) (r0 : Vec3) (iangle pwidth dq qlo qhi : ℚ),
      0 < iangle → iangle ≤ 90 → 0 < pwidth → pwidth ≤ 1/4 →
      roche_findq eng r0 iangle pwidth (2/10) dq qlo qhi =
        .raise ⟨.valueError, "roche.findq: acc <= 0 or acc > 0.1"⟩) := by
  refine ⟨?_, ?_, ?_, ?_, ?_⟩
  · intro eng q hq
    unfold roche_lobe1
    rw [if_neg (not_le.mpr hq), if_pos (by omega : (1:ℤ) < 2)]
  · intro eng q phi x y z ffac acc star hq
    unfold roche_fblink
    rw [if_neg (not_le.mpr hq), if_pos (Or.inl le_rfl)]
  · intro eng q phi x y z ffac acc star hq
    unfold roche_fblink
    rw [if_neg (not_le.mpr hq), if_pos (Or.inr (by norm_num))]
  · intro eng q stype n hq
    unfold roche_vstream
    rw [if_neg (not_le.mpr hq), if_pos (Or.inr le_rfl)]
  · intro eng r0 iangle pwidth dq qlo qhi hi1 hi2 hp1 hp2
    unfold roche_findq roche_findqT
    rw [if_neg (not_or.mpr ⟨not_le.mpr hi1, not_lt.mpr hi2⟩),
      if_neg (not_or.mpr ⟨not_le.mpr hp1, not_lt.mpr hp2⟩),
      if_pos (Or.inr (by norm_num))]

/-- C5 witness: the five rejections at concrete arguments. -/
theorem boundary_literals_rejected_witness :
    roche_lobe1 engZero 1 1 = .raise ⟨.valueError, "roche.lobe1: n < 2"⟩ ∧
    roche_fblink engZero 1 0 0 0 0 0 1 (1/100) 2 =
      .raise ⟨.valueError, "roche.fblink: iangle out of range 0 to 90"⟩ ∧
    roche_fblink engZero 1 91 0 0 0 0 1 (1/100) 2 =
      .raise ⟨.valueError, "roche.fblink: iangle out of range 0 to 90"⟩ ∧
    roche_vstream engZero 1 1 1 60 =
      .raise ⟨.valueError, "roche.vstream: step <= 0 or >= 1."⟩ ∧
    roche_findq engZero v0 90 (1/10) (2/10) (1/100000) (1/1000) 2 =
      .raise ⟨.valueError, "roche.findq: acc <= 0 or acc > 0.1"⟩ :=
  ⟨boundary_literals_rejected.1 engZero 1 (by with_unfolding_all decide),
   boundary_literals_rejected.2.1 engZero 1 0 0 0 0 1 (1/100) 2
     (by with_unfolding_all decide),
   boundary_literals_rejected.2.2.1 engZero 1 0 0 0 0 1 (1/100) 2
     (by with_unfolding_all decide),
   boundary_literals_rejected.2.2.2.1 engZero 1 1 60
     (by with_unfolding_all decide),
   boundary_literals_rejected.2.2.2.2 engZero v0 90 (1/10) (1/100000) (1/1000) 2
     (by with_unfolding_all decide) (by with_unfolding_all decide)
     (by with_unfolding_all decide) (by with_unfolding_all decide)⟩

/-- C6: for every `q > 0` and requested count `n >= 2`, the lobe boundary,
velocity-space lobe, stream trace and velocity-space stream wrappers each
return exactly n coordinate pairs, for every engine (the buffer being sized
by the wrapper before the engine fills it). -/
theorem output_length_exact (eng : RocheEngine) (q rad step : ℚ)
    (n stype : ℤ) (hq : 0 < q) (hn : 2 ≤ n) :
    (∃ l, roche_lobe1 eng q n = .ok l ∧ l.length = n.toNat) ∧
    (∃ l, roche_lobe2 eng q n = .ok l ∧ l.length = n.toNat) ∧
    (∃ l, roche_vlobe1 eng q n = .ok l ∧ l.length = n.toNat) ∧
    (∃ l, roche_vlobe2 eng q n = .ok l ∧ l.length = n.toNat) ∧
    (0 ≤ rad → rad ≤ 1 →
      ∃ l, roche_stream eng q rad n = .ok l ∧ l.length = n.toNat) ∧
    (0 < step → step < 1 →
      ∀ a, eng.vstrreg q step n.toNat stype = .ok a →
        ∃ l, roche_vstream eng q step stype n = .ok l ∧ l.length = n.toNat) := by
  have hq' : ¬ q ≤ 0 := not_le.mpr hq
  have hn' : ¬ n < 2 := not_lt.mpr hn
  refine ⟨?_, ?_, ?_, ?_, ?_, ?_⟩
  · unfold roche_lobe1
    rw [if_neg hq', if_neg hn']
    exact ⟨_, rfl, List.length_ofFn _⟩
  · unfold roche_lobe2
    rw [if_neg hq', if_neg hn']
    exact ⟨_, rfl, List.length_ofFn _⟩
  · unfold roche_vlobe1
    rw [if_neg hq', if_neg hn']
    exact ⟨_, rfl, List.length_ofFn _⟩
  · unfold roche_vlobe2
    rw [if_neg hq', if_neg hn']
    exact ⟨_, rfl, List.length_ofFn _⟩
  · intro hr1 hr2
    unfold roche_stream
    rw [if_neg hq', if_neg (not_or.mpr ⟨not_lt.mpr hr1, not_lt.mpr hr2⟩),
      if_neg hn']
    exact ⟨_, rfl, List.length_ofFn _⟩
  · intro hs1 hs2 a ha
    unfold roche_vstream
    rw [if_neg hq', if_neg (not_or.mpr ⟨not_le.mpr hs1, not_le.mpr hs2⟩),
      if_neg (by intro h; omega : ¬ (stype < 1 ∧ 2 < stype)), if_neg hn', ha]
    exact ⟨_, rfl, List.length_ofFn _⟩

/-- C6 witness: at `q = 1`, `n = 2`, with the zero engine, every operation
returns exactly two pairs. -/
theorem output_length_exact_witness :
    (∃ l, roche_lobe1 engZero 1 2 = .ok l ∧ l.length = (2:ℤ).toNat) ∧
    (∃ l, roche_lobe2 engZero 1 2 = .ok l ∧ l.length = (2:ℤ).toNat) ∧
    (∃ l, roche_vlobe1 engZero 1 2 = .ok l ∧ l.length = (2:ℤ).toNat) ∧
    (∃ l, roche_vlobe2 engZero 1 2 = .ok l ∧ l.length = (2:ℤ).toNat) ∧
    ((0:ℚ) ≤ 1/2 → (1:ℚ)/2 ≤ 1 →
      ∃ l, roche_stream engZero 1 (1/2) 2 = .ok l ∧ l.length = (2:ℤ).toNat) ∧
    ((0:ℚ) < 1/100 → (1:ℚ)/100 < 1 →
      ∀ a, engZero.vstrreg 1 (1/100) (2:ℤ).toNat 1 = .ok a →
        ∃ l, roche_vstream engZero 1 (1/100) 1 2 = .ok l ∧
          l.length = (2:ℤ).toNat) :=
  output_length_exact engZero 1 (1/2) (1/100) 2 1
    (by with_unfolding_all decide) (by with_unfolding_all decide)

/-- C7: for every `q >= 0`, `n >= 1` and accuracy above 0, `roche_strmnx`
starts from the engine initial state (per the spec, the inner Lagrangian
point), applies the single-turning-point search exactly n times in sequence
(1-indexed: `n = 1` is one application), and returns the final position with
its velocity transformed by the same frame transform once per star. -/
theorem strmnx_iteration_structure (eng : RocheEngine) (q : ℚ) (n : ℤ)
    (acc : ℚ) (hq : 0 ≤ q) (hn : 1 ≤ n) (hacc : 0 < acc) :
    ∃ p : Vec3 × Vec3,
      p = (fun s : Vec3 × Vec3 => eng.strmnx q s.1 s.2 acc)^[n.toNat]
        (eng.strinit q) ∧
      roche_strmnx eng q n acc =
        .ok (p.1.x, p.1.y,
          (eng.vtrans q 1 p.1.x p.1.y p.2.x p.2.y).1,
          (eng.vtrans q 1 p.1.x p.1.y p.2.x p.2.y).2,
          (eng.vtrans q 2 p.1.x p.1.y p.2.x p.2.y).1,
          (eng.vtrans q 2 p.1.x p.1.y p.2.x p.2.y).2) := by
  refine ⟨_, rfl, ?_⟩
  unfold roche_strmnx
  rw [if_neg (not_lt.mpr hq), if_neg (not_lt.mpr hn),
    if_neg (not_le.mpr hacc),
    foldl_range_const (fun s : Vec3 × Vec3 => eng.strmnx q s.1 s.2 acc)]

/-- C7 witness: one pass at `q = 0`, `n = 1`, accuracy 1. -/
theorem strmnx_iteration_structure_witness :
    ∃ p : Vec3 × Vec3,
      p = (fun s : Vec3 × Vec3 => engZero.strmnx 0 s.1 s.2 1)^[(1:ℤ).toNat]
        (engZero.strinit 0) ∧
      roche_strmnx engZero 0 1 1 =
        .ok (p.1.x, p.1.y,
          (engZero.vtrans 0 1 p.1.x p.1.y p.2.x p.2.y).1,
          (engZero.vtrans 0 1 p.1.x p.1.y p.2.x p.2.y).2,
          (engZero.vtrans 0 2 p.1.x p.1.y p.2.x p.2.y).1,
          (engZero.vtrans 0 2 p.1.x p.1.y p.2.x p.2.y).2) :=
  strmnx_iteration_structure engZero 0 1 1
    (by with_unfolding_all decide) (by with_unfolding_all decide)
    (by with_unfolding_all decide)

/-- C9: the defaults used by findq when the optional arguments are omitted
are acc = 1e-4, dq = 1e-5, qlo = 0.001 and qhi = 2.0; in particular the
default lower bracket end is 0.001, not the 0.005 advertised by the method
docstring in the `RocheMethods` table. -/
theorem findq_default_values :
    findqDefaults.acc = 1/10000 ∧ findqDefaults.dq = 1/100000 ∧
    findqDefaults.qlo = 1/1000 ∧ findqDefaults.qhi = 2 ∧
    findqDefaults.qlo ≠ findqDocQlo ∧
    (∀ (eng : RocheEngine) (r0 : Vec3) (iangle pwidth : ℚ),
      roche_findq_default eng r0 iangle pwidth =
        roche_findq eng r0 iangle pwidth (1/10000) (1/100000) (1/1000) 2) :=
  ⟨rfl, rfl, rfl, rfl, by with_unfolding_all decide, fun _ _ _ _ => rfl⟩

/-- C10: for every `q >= 0` (the source rejects only `q < 0`), the
Lagrangian point wrappers deliver the engine double passed through the
`Py_BuildValue("f", x)` double-to-float narrowing, modelled by
`float32round`; the delivered value is the nearest representable single-
precision value, not the full double: for instance 1/10 narrows to
13421773/134217728, which differs from 1/10. -/
theorem xl_narrowed_to_float (eng : RocheEngine) (q : ℚ) (hq : 0 ≤ q) :
    roche_xl1 eng q = .ok (float32round (eng.xl1 q)) ∧
    roche_xl2 eng q = .ok (float32round (eng.xl2 q)) ∧
    roche_xl3 eng q = .ok (float32round (eng.xl3 q)) ∧
    float32round (1/10) = 13421773/134217728 ∧
    float32round (1/10) ≠ 1/10 := by
  have h : ¬ q < 0 := not_lt.mpr hq
  exact ⟨by unfold roche_xl1; rw [if_neg h], by unfold roche_xl2; rw [if_neg h],
    by unfold roche_xl3; rw [if_neg h],
    by with_unfolding_all rfl, by with_unfolding_all decide⟩

/-- C10 witness: an engine whose Lagrangian routines return 1/10 delivers
the narrowed value. -/
theorem xl_narrowed_to_float_witness :
    roche_xl1 engTenth 0 = .ok (float32round (engTenth.xl1 0)) ∧
    roche_xl2 engTenth 0 = .ok (float32round (engTenth.xl2 0)) ∧
    roche_xl3 engTenth 0 = .ok (float32round (engTenth.xl3 0)) ∧
    float32round (1/10) = 13421773/134217728 ∧
    float32round (1/10) ≠ 1/10 :=
  xl_narrowed_to_float engTenth 0 (by with_unfolding_all decide)
